import Mathlib

/-!
Shallow embedding of the EchoPilot review pipeline:

* `supabase/functions/analyze-sentiment/index.ts` — keyword-lexicon
  sentiment scoring (`analyzeSentiment`), topic extraction
  (`extractKeyTopics`), key-phrase extraction (`extractKeyPhrases`),
  tag derivation (`generateReviewTags`) and the HTTP handler.
* `supabase/functions/fetch-reviews/index.ts` — review ingestion
  (`processAndStoreReviews`) and its HTTP handler.
* The `reviews` table of the SQL schema (dedup key, processing status).

Numbers that are JS floats in the source are modelled as rationals
(exact arithmetic); the quantities involved are small integer ratios and
fixed decimal constants, for which the comparisons performed by the code
coincide with exact arithmetic.  `Math.random()` is modelled by an
explicit natural-number draw passed as a parameter.  String operations
(`toLowerCase`, `includes`, `trim`, `split`) are modelled on the
character list underlying `String`.
-/

namespace EchoPilot

/-- JS `needle` is a prefix of `hay` (character lists). -/
def isPrefixCh : List Char → List Char → Bool
  | [], _ => true
  | _ :: _, [] => false
  | a :: as, b :: bs => a == b && isPrefixCh as bs

/-- JS `hay.includes(needle)` on character lists: some suffix of `hay`
starts with `needle`. -/
def containsCh : List Char → List Char → Bool
  | [], needle => needle.isEmpty
  | c :: t, needle => isPrefixCh needle (c :: t) || containsCh (t) needle

/-- JS `text.toLowerCase()` (ASCII, which is all the lexicons use). -/
def lowerCh (text : String) : List Char := text.data.map Char.toLower

/-- The fixed positive lexicon of `analyzeSentiment`. -/
def positiveWords : List String :=
  ["amazing", "excellent", "great", "good", "wonderful", "fantastic", "outstanding",
   "perfect", "love", "enjoy", "delicious", "friendly", "helpful", "professional",
   "quick", "fast", "clean", "beautiful", "comfortable", "recommend", "best"]

/-- The fixed negative lexicon of `analyzeSentiment`. -/
def negativeWords : List String :=
  ["terrible", "awful", "horrible", "bad", "poor", "disappointing", "worst",
   "hate", "disgusting", "rude", "slow", "dirty", "expensive", "overpriced",
   "cold", "burnt", "wrong", "broken", "uncomfortable", "avoid", "never"]

/-- Number of lexicon words contained in the lowercased text (the source
increments the counter once per lexicon word whose `includes` test
succeeds, i.e. it counts distinct matching lexicon terms, not
occurrences). -/
def presenceHits (lexicon : List String) (text : String) : ℕ :=
  lexicon.countP (fun w => containsCh (lowerCh text) w.data)

/-- `positiveCount` of `analyzeSentiment`. -/
def positiveCount (text : String) : ℕ := presenceHits positiveWords text

/-- `negativeCount` of `analyzeSentiment`. -/
def negativeCount (text : String) : ℕ := presenceHits negativeWords text

/-- `totalWords` of `analyzeSentiment`. -/
def totalCount (text : String) : ℕ := positiveCount text + negativeCount text

/-- `sentimentScore` before clamping: `(positiveCount - negativeCount) /
totalWords` when some lexicon word matched, else `0`. -/
def rawScore (text : String) : ℚ :=
  if 0 < totalCount text then
    ((positiveCount text : ℚ) - (negativeCount text : ℚ)) / (totalCount text : ℚ)
  else 0

/-- JS `Math.min` on rationals (numbers are never NaN here). -/
def ratMin (a b : ℚ) : ℚ := if a ≤ b then a else b

/-- JS `Math.max` on rationals (numbers are never NaN here). -/
def ratMax (a b : ℚ) : ℚ := if a ≤ b then b else a

/-- JS `Math.abs` on rationals. -/
def ratAbs (a : ℚ) : ℚ := if a ≤ 0 then -a else a

/-- Sentiment labels. -/
inductive Sentiment
  | positive
  | negative
  | neutral
deriving DecidableEq, Repr

/-- `overallSentiment` of `analyzeSentiment`: thresholds applied to the
unclamped score, only when some lexicon word matched. -/
def overallLabel (text : String) : Sentiment :=
  if 0 < totalCount text then
    if (1 : ℚ)/5 < rawScore text then .positive
    else if rawScore text < -((1 : ℚ)/5) then .negative
    else .neutral
  else .neutral

/-- The topic keyword groups of `extractKeyTopics`, in source order. -/
def topicKeywords : List (String × List String) :=
  [("service", ["service", "staff", "employee", "server", "waiter", "waitress", "cashier"]),
   ("food", ["food", "meal", "dish", "cuisine", "cooking", "chef", "kitchen"]),
   ("coffee", ["coffee", "espresso", "latte", "cappuccino", "brew", "bean"]),
   ("atmosphere", ["atmosphere", "ambiance", "environment", "decor", "music", "lighting"]),
   ("price", ["price", "cost", "expensive", "cheap", "affordable", "value", "worth"]),
   ("location", ["location", "place", "area", "neighborhood", "parking", "access"]),
   ("cleanliness", ["clean", "dirty", "hygiene", "sanitary", "messy", "tidy"]),
   ("speed", ["fast", "slow", "quick", "wait", "time", "efficient", "delayed"])]

/-- `extractKeyTopics`: a topic is emitted when any of its keywords is
contained in the lowercased text; the JS `Set` preserves first-insertion
order and deduplicates, which over distinct topic names is the source
order of matching topics. -/
def extractKeyTopics (text : String) : List String :=
  topicKeywords.foldl
    (fun acc tk =>
      if tk.2.any (fun kw => containsCh (lowerCh text) kw.data) && !(acc.contains tk.1)
      then acc ++ [tk.1] else acc)
    []

/-- JS `String.prototype.trim` on character lists. -/
def trimCh (l : List Char) : List Char :=
  ((l.dropWhile Char.isWhitespace).reverse.dropWhile Char.isWhitespace).reverse

/-- Split a character list at every character satisfying `p`, keeping
empty segments (the behaviour of JS `split` on a single character). -/
def splitCh (p : Char → Bool) : List Char → List (List Char)
  | [] => [[]]
  | c :: t =>
    if p c then [] :: splitCh p t
    else
      match splitCh p t with
      | [] => [[c]]
      | h :: r => (c :: h) :: r

/-- Sentence delimiters of `extractKeyPhrases` (`/[.!?]+/`).  Splitting
on each delimiter produces extra empty segments relative to the regex,
all of which the subsequent non-blank filter removes, so the filtered
sentence lists coincide. -/
def isSentenceDelim (c : Char) : Bool := c == '.' || c == '!' || c == '?'

/-- `extractKeyPhrases`: split into sentences, keep non-blank ones whose
trimmed word count (splitting on single spaces) is between 3 and 8, cap
at 5. -/
def extractKeyPhrases (text : String) : List String :=
  let sentences := (splitCh isSentenceDelim text.data).filter
    (fun s => 0 < (trimCh s).length)
  (sentences.filterMap (fun s =>
    let t := trimCh s
    let words := splitCh (fun c => c == ' ') t
    if 3 ≤ words.length ∧ words.length ≤ 8 then some (String.mk t) else none)).take 5

/-- The `analysis_metadata` JSON object built by `analyzeSentiment`. -/
structure AnalysisMetadata where
  language : String
  model_version : String
  processing_time_ms : ℕ
  positive_words_found : ℕ
  negative_words_found : ℕ
  total_words_analyzed : ℕ
deriving DecidableEq, Repr

/-- `SentimentResult` of `analyze-sentiment/index.ts`. -/
structure SentimentResult where
  overall_sentiment : Sentiment
  sentiment_score : ℚ
  confidence_score : ℚ
  key_topics : List String
  key_phrases : List String
  analysis_metadata : AnalysisMetadata
deriving DecidableEq, Repr

/-- `analyzeSentiment text rand`: the pure content of the async
`analyzeSentiment` function.  `rand` models the draw of `Math.random()`
scaled by 200 and floored, so `processing_time_ms = rand % 200 + 100`. -/
def analyzeSentiment (text : String) (rand : ℕ) : SentimentResult :=
  { overall_sentiment := overallLabel text
    sentiment_score := ratMax (-1) (ratMin 1 (rawScore text))
    confidence_score := ratMin ((95 : ℚ)/100) ((1 : ℚ)/2 + ratAbs (rawScore text) * ((3 : ℚ)/10))
    key_topics := extractKeyTopics text
    key_phrases := extractKeyPhrases text
    analysis_metadata :=
      { language := "en"
        model_version := "1.0"
        processing_time_ms := rand % 200 + 100
        positive_words_found := positiveCount text
        negative_words_found := negativeCount text
        total_words_analyzed := (splitCh (fun c => c == ' ') text.data).length } }

/-- A row of the `review_tags` table as built by `generateReviewTags`. -/
structure ReviewTag where
  tag_name : String
  tag_category : String
  confidence_score : ℚ
deriving DecidableEq, Repr

/-- The topic-to-tag switch of `generateReviewTags`. -/
def tagForTopic (sentiment : Sentiment) (conf : ℚ) (topic : String) : ReviewTag :=
  if topic == "service" || topic == "staff" then
    ⟨if sentiment = .positive then "friendly staff" else "poor service", "staff", conf⟩
  else if topic == "food" || topic == "coffee" then
    ⟨if sentiment = .positive then "quality food" else "poor food", "product", conf⟩
  else if topic == "atmosphere" then
    ⟨if sentiment = .positive then "good atmosphere" else "poor atmosphere", "ambiance", conf⟩
  else if topic == "price" then
    ⟨if sentiment = .positive then "good value" else "overpriced", "value", conf⟩
  else if topic == "speed" then
    ⟨if sentiment = .positive then "fast service" else "slow service", "service", conf⟩
  else ⟨topic, "other", conf⟩

/-- `generateReviewTags` (the tag list it inserts, one per detected
topic, carrying the result's confidence). -/
def generateReviewTags (sr : SentimentResult) : List ReviewTag :=
  sr.key_topics.map (tagForTopic sr.overall_sentiment sr.confidence_score)

/-! ### Review ingestion (`fetch-reviews/index.ts`) and the `reviews` table -/

/-- The `processing_status` enum of the `reviews` table. -/
inductive Status
  | pending
  | processing
  | completed
  | failed
deriving DecidableEq, Repr

/-- The `ReviewData` interface of `fetch-reviews/index.ts`. -/
structure ReviewData where
  platform_review_id : String
  reviewer_name : String
  reviewer_avatar : Option String
  rating : ℕ
  review_text : String
  review_date : String
  review_url : String
deriving DecidableEq, Repr

/-- A row of the `reviews` table (the fields this pipeline reads or
writes).  `id` models the generated primary key. -/
structure Review where
  id : ℕ
  business_id : String
  platform : String
  platform_review_id : String
  reviewer_name : String
  reviewer_avatar : Option String
  rating : ℕ
  review_text : String
  review_date : String
  review_url : String
  is_processed : Bool
  processing_status : Status
deriving DecidableEq, Repr

/-- The `reviews` table: stored rows plus the next generated id. -/
structure ReviewsDB where
  rows : List Review
  nextId : ℕ
deriving DecidableEq, Repr

/-- The dedup lookup predicate of `processAndStoreReviews`: equality on
(business, platform, platform-native review id) — the `UNIQUE` key of
the `reviews` table. -/
def matchesKey (b p prid : String) (r : Review) : Bool :=
  r.business_id == b && r.platform == p && r.platform_review_id == prid

/-- The row built by the `insert` of `processAndStoreReviews`:
`is_processed: false, processing_status: 'pending'`. -/
def mkReview (id : ℕ) (b p : String) (rd : ReviewData) : Review :=
  { id := id
    business_id := b
    platform := p
    platform_review_id := rd.platform_review_id
    reviewer_name := rd.reviewer_name
    reviewer_avatar := rd.reviewer_avatar
    rating := rd.rating
    review_text := rd.review_text
    review_date := rd.review_date
    review_url := rd.review_url
    is_processed := false
    processing_status := .pending }

/-- The `update ... set is_processed true, processing_status completed
where id = rid` that `processAndStoreReviews` issues right after each
insert. -/
def markProcessed (rows : List Review) (rid : ℕ) : List Review :=
  rows.map (fun r =>
    if r.id == rid then { r with is_processed := true, processing_status := .completed } else r)

/-- The database after one successful insert of `processAndStoreReviews`:
the `pending` row is appended with the next generated id, and the
immediately following update marks that id processed/completed. -/
def insertAndMark (db : ReviewsDB) (b p : String) (rd : ReviewData) : ReviewsDB :=
  ⟨markProcessed (db.rows ++ [mkReview db.nextId b p rd]) db.nextId, db.nextId + 1⟩

/-- `processAndStoreReviews`: for each fetched review, skip it when a
row with the same (business, platform, platform_review_id) exists;
otherwise attempt the insert — a failed insert is logged and skipped
(`continue`); a successful insert appends a `pending` row, records it in
`processedReviews`, and is immediately followed by the mark-processed
update.  `fail i` models whether the database rejects the insert
attempted for the review at position `i` (the code reads the returned
`insertError`); `idx` is the position of the head of the remaining
list. -/
def processAndStoreReviews (db : ReviewsDB) (b p : String) (fail : ℕ → Bool) (idx : ℕ) :
    List ReviewData → ReviewsDB × List Review
  | [] => (db, [])
  | rd :: rest =>
    if db.rows.any (matchesKey b p rd.platform_review_id) then
      processAndStoreReviews db b p fail (idx + 1) rest
    else if fail idx then
      processAndStoreReviews db b p fail (idx + 1) rest
    else
      ((processAndStoreReviews (insertAndMark db b p rd) b p fail (idx + 1) rest).1,
        mkReview db.nextId b p rd ::
          (processAndStoreReviews (insertAndMark db b p rd) b p fail (idx + 1) rest).2)

/-- An insert oracle under which every attempted insert succeeds. -/
def noFail : ℕ → Bool := fun _ => false

/-- A row of the `businesses` table (the fields the fetch handler
reads or writes).  `last_review_fetch` is a millisecond timestamp. -/
structure Business where
  id : String
  google_place_id : String
  yelp_business_id : String
  last_review_fetch : Option Int
deriving DecidableEq, Repr

/-- Twenty-four hours in milliseconds.  The handler computes
`(now - lastFetch) / 3600000 < 24` with exact division, which is
equivalent to `now - lastFetch < 86400000`. -/
def refreshWindowMs : Int := 86400000

/-- The freshness check of the fetch handler: skip unless forced, when a
last-fetch timestamp exists and lies less than 24 hours in the past. -/
def shouldSkipFetch (business : Business) (force : Bool) (now : Int) : Bool :=
  !force &&
    (match business.last_review_fetch with
     | some t => decide (now - t < refreshWindowMs)
     | none => false)

/-- The observable responses of the fetch handler (after the
request-validation and business-lookup guards). -/
inductive FetchOutcome
  | skipped (last_fetch : Int)
  | fetched (reviews_processed : ℕ)
  | serverError
deriving DecidableEq, Repr

/-- The fetch handler of `fetch-reviews/index.ts` from the freshness
check on: on skip it answers 200 with the old timestamp and touches
nothing; a throwing external fetch is answered 500 by the catch block
with nothing updated; otherwise the fetched reviews are processed, the
business's `last_review_fetch` is set to the current time, and the
response reports `reviews_processed = processedReviews.length`. -/
def fetchReviewsHandler (business : Business) (platform : String) (force : Bool) (now : Int)
    (external : Except Unit (List ReviewData)) (db : ReviewsDB) (fail : ℕ → Bool) :
    FetchOutcome × Business × ReviewsDB :=
  if shouldSkipFetch business force now then
    (.skipped ((business.last_review_fetch).getD 0), business, db)
  else
    match external with
    | .error _ => (.serverError, business, db)
    | .ok reviews =>
      let res := processAndStoreReviews db business.id platform fail 0 reviews
      (.fetched res.2.length, { business with last_review_fetch := some now }, res.1)

/-! ### The `analyze-sentiment` HTTP handler -/

/-- The observable responses of the sentiment handler. -/
inductive AnalyzeOutcome
  | badRequest
  | completed (result : SentimentResult)
  | serverError
deriving DecidableEq, Repr

/-- The status updates the sentiment handler issues on the `reviews`
table, modelled on (review id, processing_status) pairs. -/
def updateReviewStatus (rows : List (String × Status)) (rid : String) (st : Status) :
    List (String × Status) :=
  rows.map (fun r => if r.1 == rid then (r.1, st) else r)

/-- The `analyze-sentiment` request handler: a missing or empty
`review_id`/`review_text` (both falsy in JS) is answered 400 before any
database write; otherwise the review is marked `processing`, the text is
analyzed, and the review is marked `failed` when storing the analysis
fails (`insertFails`) or `completed` on success. -/
def analyzeSentimentHandler (review_id review_text : String) (rand : ℕ)
    (rows : List (String × Status)) (insertFails : Bool) :
    AnalyzeOutcome × List (String × Status) :=
  if review_id == "" || review_text == "" then (.badRequest, rows)
  else
    let rows1 := updateReviewStatus rows review_id .processing
    let result := analyzeSentiment review_text rand
    if insertFails then (.serverError, updateReviewStatus rows1 review_id .failed)
    else (.completed result, updateReviewStatus rows1 review_id .completed)

/-! ### Basic facts about the rational helpers -/

theorem ratMin_le_left (a b : ℚ) : ratMin a b ≤ a := by
  simp only [ratMin]
  by_cases h : a ≤ b
  · rw [if_pos h]
  · rw [if_neg h]
    exact le_of_not_le h

theorem ratMin_eq_right (a b : ℚ) (h : b ≤ a) : ratMin a b = b := by
  simp only [ratMin]
  by_cases hab : a ≤ b
  · rw [if_pos hab]
    exact le_antisymm hab h
  · rw [if_neg hab]

theorem ratAbs_nonneg (x : ℚ) : 0 ≤ ratAbs x := by
  simp only [ratAbs]
  by_cases h : x ≤ 0
  · rw [if_pos h]; linarith
  · rw [if_neg h]; push_neg at h; linarith

theorem ratAbs_le_one (x : ℚ) (h1 : -1 ≤ x) (h2 : x ≤ 1) : ratAbs x ≤ 1 := by
  simp only [ratAbs]
  by_cases h : x ≤ 0
  · rw [if_pos h]; linarith
  · rw [if_neg h]; exact h2

theorem rawScore_bounds (text : String) : -1 ≤ rawScore text ∧ rawScore text ≤ 1 := by
  unfold rawScore
  by_cases h : 0 < totalCount text
  · rw [if_pos h]
    have hp : (0 : ℚ) ≤ (positiveCount text : ℚ) := Nat.cast_nonneg _
    have hn : (0 : ℚ) ≤ (negativeCount text : ℚ) := Nat.cast_nonneg _
    have hden : (0 : ℚ) < (totalCount text : ℚ) := by exact_mod_cast h
    have hcast : (totalCount text : ℚ) = (positiveCount text : ℚ) + (negativeCount text : ℚ) := by
      unfold totalCount; push_cast; ring
    constructor
    · rw [le_div_iff₀ hden, hcast]; linarith
    · rw [div_le_one hden, hcast]; linarith
  · rw [if_neg h]; norm_num

theorem clamp_eq_self (x : ℚ) (h1 : -1 ≤ x) (h2 : x ≤ 1) : ratMax (-1) (ratMin 1 x) = x := by
  simp only [ratMin, ratMax]
  by_cases h : (1 : ℚ) ≤ x
  · rw [if_pos h, if_pos (show (-1 : ℚ) ≤ 1 by norm_num)]
    exact le_antisymm h h2
  · rw [if_neg h, if_pos h1]

theorem sentiment_score_eq_rawScore (text : String) (rand : ℕ) :
    (analyzeSentiment text rand).sentiment_score = rawScore text :=
  clamp_eq_self _ (rawScore_bounds text).1 (rawScore_bounds text).2

theorem rawScore_of_totalCount_eq_zero (text : String) (h : ¬ 0 < totalCount text) :
    rawScore text = 0 := by
  unfold rawScore
  rw [if_neg h]

/-- C1: every SentimentResult produced by `analyzeSentiment` has a
score in [-1, 1] and a confidence in [0, 0.95], and its label matches
its score: score > 0.2 iff positive, score < -0.2 iff negative,
otherwise neutral. -/
theorem sentiment_result_invariants (text : String) (rand : ℕ) :
    (-1 ≤ (analyzeSentiment text rand).sentiment_score ∧
      (analyzeSentiment text rand).sentiment_score ≤ 1) ∧
    (0 ≤ (analyzeSentiment text rand).confidence_score ∧
      (analyzeSentiment text rand).confidence_score ≤ (95 : ℚ)/100) ∧
    ((1 : ℚ)/5 < (analyzeSentiment text rand).sentiment_score ↔
      (analyzeSentiment text rand).overall_sentiment = Sentiment.positive) ∧
    ((analyzeSentiment text rand).sentiment_score < -((1 : ℚ)/5) ↔
      (analyzeSentiment text rand).overall_sentiment = Sentiment.negative) ∧
    ((analyzeSentiment text rand).overall_sentiment =
      if (1 : ℚ)/5 < (analyzeSentiment text rand).sentiment_score then Sentiment.positive
      else if (analyzeSentiment text rand).sentiment_score < -((1 : ℚ)/5) then Sentiment.negative
      else Sentiment.neutral) := by
  have hb := rawScore_bounds text
  have hs : (analyzeSentiment text rand).sentiment_score = rawScore text :=
    sentiment_score_eq_rawScore text rand
  have hl : (analyzeSentiment text rand).overall_sentiment = overallLabel text := rfl
  have hc : (analyzeSentiment text rand).confidence_score =
      ratMin ((95 : ℚ)/100) ((1 : ℚ)/2 + ratAbs (rawScore text) * ((3 : ℚ)/10)) := rfl
  rw [hs, hl, hc]
  refine ⟨⟨hb.1, hb.2⟩, ⟨?_, ratMin_le_left _ _⟩, ?_⟩
  · have h0 : 0 ≤ ratAbs (rawScore text) * ((3 : ℚ)/10) :=
      mul_nonneg (ratAbs_nonneg _) (by norm_num)
    simp only [ratMin]
    by_cases h : ((95 : ℚ)/100) ≤ (1 : ℚ)/2 + ratAbs (rawScore text) * ((3 : ℚ)/10)
    · rw [if_pos h]; norm_num
    · rw [if_neg h]; linarith
  · by_cases h : 0 < totalCount text
    · have heq : overallLabel text =
          (if (1 : ℚ)/5 < rawScore text then Sentiment.positive
           else if rawScore text < -((1 : ℚ)/5) then Sentiment.negative
           else Sentiment.neutral) := by
        unfold overallLabel
        rw [if_pos h]
      rw [heq]
      by_cases h1 : (1 : ℚ)/5 < rawScore text
      · rw [if_pos h1]
        exact ⟨iff_of_true h1 rfl, iff_of_false (by linarith) (by simp), rfl⟩
      · rw [if_neg h1]
        by_cases h2 : rawScore text < -((1 : ℚ)/5)
        · rw [if_pos h2]
          exact ⟨iff_of_false h1 (by simp), iff_of_true h2 rfl, rfl⟩
        · rw [if_neg h2]
          exact ⟨iff_of_false h1 (by simp), iff_of_false h2 (by simp), rfl⟩
    · have heq : overallLabel text = Sentiment.neutral := by
        unfold overallLabel
        rw [if_neg h]
      have h0 : rawScore text = 0 := rawScore_of_totalCount_eq_zero text h
      rw [heq, h0]
      refine ⟨iff_of_false (by norm_num) (by simp), iff_of_false (by norm_num) (by simp), ?_⟩
      rw [if_neg (by norm_num), if_neg (by norm_num)]

/-- C10: the confidence score always lies in [0.5, 0.8]; the 0.95 cap
in the confidence expression is never the binding bound, so confidence
equals 0.5 + 0.3 × |score| outright. -/
theorem confidence_band (text : String) (rand : ℕ) :
    (1 : ℚ)/2 ≤ (analyzeSentiment text rand).confidence_score ∧
    (analyzeSentiment text rand).confidence_score ≤ (4 : ℚ)/5 ∧
    (analyzeSentiment text rand).confidence_score =
      (1 : ℚ)/2 + ratAbs ((analyzeSentiment text rand).sentiment_score) * ((3 : ℚ)/10) := by
  have hb := rawScore_bounds text
  have habs0 := ratAbs_nonneg (rawScore text)
  have habs1 := ratAbs_le_one _ hb.1 hb.2
  have hmul1 : ratAbs (rawScore text) * ((3 : ℚ)/10) ≤ 1 * ((3 : ℚ)/10) :=
    mul_le_mul_of_nonneg_right habs1 (by norm_num)
  have hmul0 : 0 ≤ ratAbs (rawScore text) * ((3 : ℚ)/10) := mul_nonneg habs0 (by norm_num)
  have hc : (analyzeSentiment text rand).confidence_score =
      ratMin ((95 : ℚ)/100) ((1 : ℚ)/2 + ratAbs (rawScore text) * ((3 : ℚ)/10)) := rfl
  have hs : (analyzeSentiment text rand).sentiment_score = rawScore text :=
    sentiment_score_eq_rawScore text rand
  have hmin : ratMin ((95 : ℚ)/100) ((1 : ℚ)/2 + ratAbs (rawScore text) * ((3 : ℚ)/10)) =
      (1 : ℚ)/2 + ratAbs (rawScore text) * ((3 : ℚ)/10) :=
    ratMin_eq_right _ _ (by linarith)
  rw [hc, hmin, hs]
  exact ⟨by linarith, by linarith, rfl⟩

/-- C2 counterexample: the engine counts each lexicon term at most once
per text (`includes`), not its occurrences.  On a text with three
occurrences of the positive term "great" and one occurrence of the
negative term "bad" both counters are 1, so the score is 0, not the
(3-1)/(3+1) = 0.5 the claim computes from occurrence counts. -/
theorem occurrence_count_counterexample :
    positiveCount "great great great bad" = 1 ∧
    negativeCount "great great great bad" = 1 ∧
    (analyzeSentiment "great great great bad" 0).sentiment_score = 0 ∧
    (analyzeSentiment "great great great bad" 0).sentiment_score ≠ (1 : ℚ)/2 := by
  with_unfolding_all decide

/-- C2 amended: `positiveHits`/`negativeHits` are the numbers of
distinct lexicon terms contained in the lowercased text (presence
counts, not occurrence counts); when at least one lexicon term matches,
the score is (positiveHits − negativeHits)/(positiveHits +
negativeHits) clamped to [-1, 1], and the metadata reports exactly
these presence counts. -/
theorem score_from_presence_hits (text : String) (rand : ℕ)
    (h : 0 < presenceHits positiveWords text + presenceHits negativeWords text) :
    (analyzeSentiment text rand).sentiment_score =
      ratMax (-1) (ratMin 1
        (((presenceHits positiveWords text : ℚ) - (presenceHits negativeWords text : ℚ)) /
          ((presenceHits positiveWords text : ℚ) + (presenceHits negativeWords text : ℚ)))) ∧
    (analyzeSentiment text rand).analysis_metadata.positive_words_found =
      presenceHits positiveWords text ∧
    (analyzeSentiment text rand).analysis_metadata.negative_words_found =
      presenceHits negativeWords text := by
  refine ⟨?_, rfl, rfl⟩
  have hraw : rawScore text =
      ((presenceHits positiveWords text : ℚ) - (presenceHits negativeWords text : ℚ)) /
        ((presenceHits positiveWords text : ℚ) + (presenceHits negativeWords text : ℚ)) := by
    unfold rawScore
    rw [if_pos (show 0 < totalCount text from h)]
    have hcast : (totalCount text : ℚ) =
        (presenceHits positiveWords text : ℚ) + (presenceHits negativeWords text : ℚ) := by
      unfold totalCount positiveCount negativeCount
      push_cast
      ring
    rw [hcast]
    rfl
  have hs : (analyzeSentiment text rand).sentiment_score =
      ratMax (-1) (ratMin 1 (rawScore text)) := rfl
  rw [hs, hraw]

/-- Witness for the C2 amended theorem at a concrete text in which one
positive and one negative lexicon term occur. -/
theorem score_from_presence_hits_witness :
    0 < presenceHits positiveWords "great great great bad" +
        presenceHits negativeWords "great great great bad" ∧
    ((analyzeSentiment "great great great bad" 0).sentiment_score =
      ratMax (-1) (ratMin 1
        (((presenceHits positiveWords "great great great bad" : ℚ) -
            (presenceHits negativeWords "great great great bad" : ℚ)) /
          ((presenceHits positiveWords "great great great bad" : ℚ) +
            (presenceHits negativeWords "great great great bad" : ℚ)))) ∧
      (analyzeSentiment "great great great bad" 0).analysis_metadata.positive_words_found =
        presenceHits positiveWords "great great great bad" ∧
      (analyzeSentiment "great great great bad" 0).analysis_metadata.negative_words_found =
        presenceHits negativeWords "great great great bad") :=
  ⟨by decide, score_from_presence_hits "great great great bad" 0 (by decide)⟩

/-- C3 counterexample: two classification calls on the same text are
not bit-identical, because `analysis_metadata.processing_time_ms` is a
fresh random draw on every call (here the draws 0 and 1). -/
theorem classification_randomness_counterexample :
    analyzeSentiment "great coffee" 0 ≠ analyzeSentiment "great coffee" 1 := by
  with_unfolding_all decide

/-- C3 amended: classification is deterministic in every observable
except the random `processing_time_ms` metadata field — label, score,
confidence, topics, key phrases, the derived tags and the remaining
metadata fields agree across repeated calls on the same text. -/
theorem classification_deterministic_except_timing (text : String) (r1 r2 : ℕ) :
    (analyzeSentiment text r1).overall_sentiment = (analyzeSentiment text r2).overall_sentiment ∧
    (analyzeSentiment text r1).sentiment_score = (analyzeSentiment text r2).sentiment_score ∧
    (analyzeSentiment text r1).confidence_score = (analyzeSentiment text r2).confidence_score ∧
    (analyzeSentiment text r1).key_topics = (analyzeSentiment text r2).key_topics ∧
    (analyzeSentiment text r1).key_phrases = (analyzeSentiment text r2).key_phrases ∧
    generateReviewTags (analyzeSentiment text r1) = generateReviewTags (analyzeSentiment text r2) ∧
    (analyzeSentiment text r1).analysis_metadata.language =
      (analyzeSentiment text r2).analysis_metadata.language ∧
    (analyzeSentiment text r1).analysis_metadata.model_version =
      (analyzeSentiment text r2).analysis_metadata.model_version ∧
    (analyzeSentiment text r1).analysis_metadata.positive_words_found =
      (analyzeSentiment text r2).analysis_metadata.positive_words_found ∧
    (analyzeSentiment text r1).analysis_metadata.negative_words_found =
      (analyzeSentiment text r2).analysis_metadata.negative_words_found ∧
    (analyzeSentiment text r1).analysis_metadata.total_words_analyzed =
      (analyzeSentiment text r2).analysis_metadata.total_words_analyzed :=
  ⟨rfl, rfl, rfl, rfl, rfl, rfl, rfl, rfl, rfl, rfl, rfl⟩

/-- C9: on "Amazing coffee and friendly staff, highly recommend" the
engine returns label positive with score above 0.2, detects the topics
`service` and `coffee`, and derives a tag of category `staff` named
"friendly staff" that carries the result's confidence. -/
theorem positive_review_scenario :
    (analyzeSentiment "Amazing coffee and friendly staff, highly recommend" 0).overall_sentiment =
      Sentiment.positive ∧
    (1 : ℚ)/5 <
      (analyzeSentiment "Amazing coffee and friendly staff, highly recommend" 0).sentiment_score ∧
    "service" ∈
      (analyzeSentiment "Amazing coffee and friendly staff, highly recommend" 0).key_topics ∧
    "coffee" ∈
      (analyzeSentiment "Amazing coffee and friendly staff, highly recommend" 0).key_topics ∧
    (⟨"friendly staff", "staff",
        (analyzeSentiment "Amazing coffee and friendly staff, highly recommend" 0).confidence_score⟩ :
      ReviewTag) ∈
      generateReviewTags (analyzeSentiment "Amazing coffee and friendly staff, highly recommend" 0) := by
  with_unfolding_all decide

/-! ### Ingestion lemmas -/

theorem matchesKey_update (b p q : String) (r : Review) (rid : ℕ) :
    matchesKey b p q
      (if r.id == rid then { r with is_processed := true, processing_status := .completed }
       else r) = matchesKey b p q r := by
  by_cases h : r.id == rid <;> simp [h, matchesKey]

theorem markProcessed_any (rows : List Review) (rid : ℕ) (b p q : String) :
    (markProcessed rows rid).any (matchesKey b p q) = rows.any (matchesKey b p q) := by
  induction rows with
  | nil => rfl
  | cons r t ih =>
    simp only [markProcessed, List.map_cons, List.any_cons] at ih ⊢
    rw [matchesKey_update, ih]

theorem markProcessed_countP (rows : List Review) (rid : ℕ) (b p q : String) :
    (markProcessed rows rid).countP (matchesKey b p q) = rows.countP (matchesKey b p q) := by
  induction rows with
  | nil => rfl
  | cons r t ih =>
    simp only [markProcessed, List.map_cons, List.countP_cons] at ih ⊢
    rw [matchesKey_update, ih]

theorem mkReview_matches (i : ℕ) (b p : String) (rd : ReviewData) :
    matchesKey b p rd.platform_review_id (mkReview i b p rd) = true := by
  simp [matchesKey, mkReview]

theorem insertAndMark_any (db : ReviewsDB) (b p : String) (rd : ReviewData) :
    ((insertAndMark db b p rd).rows).any (matchesKey b p rd.platform_review_id) = true := by
  simp only [insertAndMark, markProcessed_any, List.any_append]
  simp [mkReview_matches]

theorem run_preserves_any (b0 p0 q0 : String) (l : List ReviewData) :
    ∀ (db : ReviewsDB) (b p : String) (fail : ℕ → Bool) (idx : ℕ),
      db.rows.any (matchesKey b0 p0 q0) = true →
      ((processAndStoreReviews db b p fail idx l).1.rows).any (matchesKey b0 p0 q0) = true := by
  induction l with
  | nil => intro db b p fail idx h; exact h
  | cons rd rest ih =>
    intro db b p fail idx h
    simp only [processAndStoreReviews]
    by_cases h1 : db.rows.any (matchesKey b p rd.platform_review_id) = true
    · rw [if_pos h1]; exact ih db b p fail (idx + 1) h
    · rw [if_neg h1]
      by_cases h2 : fail idx = true
      · rw [if_pos h2]; exact ih db b p fail (idx + 1) h
      · rw [if_neg h2]
        apply ih
        simp only [insertAndMark, markProcessed_any, List.any_append]
        rw [h]
        rfl

theorem run_covers (b p : String) (l : List ReviewData) :
    ∀ (db : ReviewsDB) (idx : ℕ) (rd : ReviewData), rd ∈ l →
      ((processAndStoreReviews db b p noFail idx l).1.rows).any
        (matchesKey b p rd.platform_review_id) = true := by
  induction l with
  | nil => intro db idx rd hmem; cases hmem
  | cons rd0 rest ih =>
    intro db idx rd hmem
    simp only [processAndStoreReviews]
    rcases List.mem_cons.mp hmem with heq | hmem'
    · subst heq
      by_cases h1 : db.rows.any (matchesKey b p rd.platform_review_id) = true
      · rw [if_pos h1]
        exact run_preserves_any b p rd.platform_review_id rest db b p noFail (idx + 1) h1
      · rw [if_neg h1, if_neg (show ¬(noFail idx = true) by simp [noFail])]
        exact run_preserves_any b p rd.platform_review_id rest _ b p noFail (idx + 1)
          (insertAndMark_any db b p rd)
    · by_cases h1 : db.rows.any (matchesKey b p rd0.platform_review_id) = true
      · rw [if_pos h1]; exact ih db (idx + 1) rd hmem'
      · rw [if_neg h1, if_neg (show ¬(noFail idx = true) by simp [noFail])]
        exact ih _ (idx + 1) rd hmem'

theorem run_noop (b p : String) (fail : ℕ → Bool) (l : List ReviewData) :
    ∀ (db : ReviewsDB) (idx : ℕ),
      (∀ rd ∈ l, db.rows.any (matchesKey b p rd.platform_review_id) = true) →
      processAndStoreReviews db b p fail idx l = (db, []) := by
  induction l with
  | nil => intro db idx _; rfl
  | cons rd rest ih =>
    intro db idx h
    simp only [processAndStoreReviews]
    rw [if_pos (h rd (List.mem_cons_self rd rest))]
    exact ih db (idx + 1) (fun x hx => h x (List.mem_cons_of_mem _ hx))

theorem run_all_fail (b p : String) (fail : ℕ → Bool) (hfail : ∀ i, fail i = true)
    (l : List ReviewData) :
    ∀ (db : ReviewsDB) (idx : ℕ), processAndStoreReviews db b p fail idx l = (db, []) := by
  induction l with
  | nil => intro db idx; rfl
  | cons rd rest ih =>
    intro db idx
    simp only [processAndStoreReviews]
    by_cases h1 : db.rows.any (matchesKey b p rd.platform_review_id) = true
    · rw [if_pos h1]; exact ih db (idx + 1)
    · rw [if_neg h1, if_pos (hfail idx)]; exact ih db (idx + 1)

/-- C4: ingestion is dedup-idempotent — running
`processAndStoreReviews` a second time over the same fetched data
changes nothing and stores nothing new, and ingesting the same
`platform_review_id` twice for the same business and platform leaves
exactly one matching row. -/
theorem ingestion_dedup_idempotent (db : ReviewsDB) (b p : String) (l : List ReviewData)
    (rd : ReviewData) (hno : db.rows.any (matchesKey b p rd.platform_review_id) = false) :
    processAndStoreReviews (processAndStoreReviews db b p noFail 0 l).1 b p noFail 0 l =
      ((processAndStoreReviews db b p noFail 0 l).1, []) ∧
    (processAndStoreReviews db b p noFail 0 [rd, rd]).1.rows.countP
      (matchesKey b p rd.platform_review_id) = 1 := by
  constructor
  · exact run_noop b p noFail l _ 0 (fun x hx => run_covers b p l db 0 x hx)
  · have hno' : ¬ (db.rows.any (matchesKey b p rd.platform_review_id) = true) := by
      rw [hno]; exact Bool.false_ne_true
    have h2 : processAndStoreReviews (insertAndMark db b p rd) b p noFail 1 [rd] =
        (insertAndMark db b p rd, []) := by
      refine run_noop b p noFail [rd] _ 1 ?_
      intro x hx
      rw [List.mem_singleton.mp hx]
      exact insertAndMark_any db b p rd
    have h1 : processAndStoreReviews db b p noFail 0 [rd, rd] =
        ((processAndStoreReviews (insertAndMark db b p rd) b p noFail 1 [rd]).1,
          mkReview db.nextId b p rd ::
            (processAndStoreReviews (insertAndMark db b p rd) b p noFail 1 [rd]).2) := by
      conv_lhs => rw [processAndStoreReviews]
      rw [if_neg hno', if_neg (show ¬(noFail 0 = true) by simp [noFail])]
    rw [h1, h2]
    simp only [insertAndMark, markProcessed_countP, List.countP_append]
    have hz : db.rows.countP (matchesKey b p rd.platform_review_id) = 0 := by
      rw [List.countP_eq_zero]
      intro a ha hpa
      exact hno' (List.any_eq_true.mpr ⟨a, ha, hpa⟩)
    rw [hz]
    simp [List.countP_cons, mkReview_matches]

/-- Witness for the C4 theorem: a fresh database, one review fetched,
re-ingested, and the duplicate pair stored once. -/
theorem ingestion_dedup_idempotent_witness :
    processAndStoreReviews
        (processAndStoreReviews ⟨[], 0⟩ "b1" "google" noFail 0
          [⟨"r1", "John", none, 5, "Great place", "2024-01-01", "url1"⟩]).1
        "b1" "google" noFail 0
        [⟨"r1", "John", none, 5, "Great place", "2024-01-01", "url1"⟩] =
      ((processAndStoreReviews ⟨[], 0⟩ "b1" "google" noFail 0
          [⟨"r1", "John", none, 5, "Great place", "2024-01-01", "url1"⟩]).1, []) ∧
    (processAndStoreReviews ⟨[], 0⟩ "b1" "google" noFail 0
        [⟨"r1", "John", none, 5, "Great place", "2024-01-01", "url1"⟩,
         ⟨"r1", "John", none, 5, "Great place", "2024-01-01", "url1"⟩]).1.rows.countP
      (matchesKey "b1" "google" "r1") = 1 :=
  ingestion_dedup_idempotent ⟨[], 0⟩ "b1" "google"
    [⟨"r1", "John", none, 5, "Great place", "2024-01-01", "url1"⟩]
    ⟨"r1", "John", none, 5, "Great place", "2024-01-01", "url1"⟩ (by decide)

/-- C5 counterexample: ingesting one fresh review into an empty store
leaves a row whose processing status is `completed`, not `pending`,
when the operation returns — the code marks each inserted row processed
immediately after the insert. -/
theorem pending_status_counterexample :
    (processAndStoreReviews ⟨[], 0⟩ "b1" "google" noFail 0
        [⟨"r1", "John", none, 5, "Great place", "2024-01-01", "url1"⟩]).1.rows.map
      (fun r => r.processing_status) = [Status.completed] ∧
    Status.completed ≠ Status.pending := by
  exact ⟨rfl, by decide⟩

/-- C5 amended: each newly persisted review is inserted with status
`pending` (the snapshot collected in `processedReviews`), but the same
pass immediately marks it `is_processed` and `completed`, so when
ingestion returns every newly stored row has status `completed` rather
than being handed to Classification in a `pending` state. -/
theorem inserted_pending_then_completed (b p : String) (fail : ℕ → Bool) (l : List ReviewData) :
    ∀ (db : ReviewsDB) (idx : ℕ), (∀ r ∈ db.rows, r.id < db.nextId) →
      (∀ r ∈ (processAndStoreReviews db b p fail idx l).2,
          r.processing_status = Status.pending ∧ r.is_processed = false) ∧
      (∀ r ∈ (processAndStoreReviews db b p fail idx l).1.rows, r ∉ db.rows →
          r.processing_status = Status.completed ∧ r.is_processed = true) := by
  induction l with
  | nil =>
    intro db idx _
    constructor
    · intro r hr
      simp only [processAndStoreReviews] at hr
      cases hr
    · intro r hr hnr
      simp only [processAndStoreReviews] at hr
      exact absurd hr hnr
  | cons rd rest ih =>
    intro db idx hwf
    simp only [processAndStoreReviews]
    by_cases h1 : db.rows.any (matchesKey b p rd.platform_review_id) = true
    · rw [if_pos h1]; exact ih db (idx + 1) hwf
    · rw [if_neg h1]
      by_cases h2 : fail idx = true
      · rw [if_pos h2]; exact ih db (idx + 1) hwf
      · rw [if_neg h2]
        have hwf2 : ∀ r ∈ (insertAndMark db b p rd).rows,
            r.id < (insertAndMark db b p rd).nextId := by
          intro r hr
          simp only [insertAndMark, markProcessed] at hr ⊢
          rcases List.mem_map.mp hr with ⟨x, hx, hfx⟩
          have hxid : x.id < db.nextId + 1 := by
            rcases List.mem_append.mp hx with hx1 | hx2
            · exact Nat.lt_succ_of_lt (hwf x hx1)
            · rcases List.mem_singleton.mp hx2 with rfl
              exact Nat.lt_succ_self _
          rw [← hfx]
          by_cases hb : (x.id == db.nextId) = true
          · rw [if_pos hb]; exact hxid
          · rw [if_neg hb]; exact hxid
        obtain ⟨ihp, ihc⟩ := ih (insertAndMark db b p rd) (idx + 1) hwf2
        constructor
        · intro r hr
          rcases List.mem_cons.mp hr with heq | hr'
          · subst heq; exact ⟨rfl, rfl⟩
          · exact ihp r hr'
        · intro r hr hnr
          by_cases hmem : r ∈ (insertAndMark db b p rd).rows
          · simp only [insertAndMark, markProcessed] at hmem
            rcases List.mem_map.mp hmem with ⟨x, hx, hfx⟩
            rcases List.mem_append.mp hx with hx1 | hx2
            · have hne : ¬ (x.id == db.nextId) = true := by
                simp only [beq_iff_eq]
                exact Nat.ne_of_lt (hwf x hx1)
              rw [if_neg hne] at hfx
              exact absurd (hfx ▸ hx1) hnr
            · rcases List.mem_singleton.mp hx2 with rfl
              have hbe : ((mkReview db.nextId b p rd).id == db.nextId) = true := by
                simp [mkReview]
              rw [if_pos hbe] at hfx
              rw [← hfx]
              exact ⟨rfl, rfl⟩
          · exact ihc r hr hmem

/-- Witness for the C5 amended theorem: one fresh review ingested into
an empty store — the processed snapshot is `pending`, the stored row is
`completed`. -/
theorem inserted_pending_then_completed_witness :
    (∀ r ∈ (processAndStoreReviews ⟨[], 0⟩ "b1" "google" noFail 0
        [⟨"r1", "John", none, 5, "Great place", "2024-01-01", "url1"⟩]).2,
        r.processing_status = Status.pending ∧ r.is_processed = false) ∧
    (∀ r ∈ (processAndStoreReviews ⟨[], 0⟩ "b1" "google" noFail 0
        [⟨"r1", "John", none, 5, "Great place", "2024-01-01", "url1"⟩]).1.rows,
        r ∉ (⟨[], 0⟩ : ReviewsDB).rows →
          r.processing_status = Status.completed ∧ r.is_processed = true) :=
  inserted_pending_then_completed "b1" "google" noFail
    [⟨"r1", "John", none, 5, "Great place", "2024-01-01", "url1"⟩] ⟨[], 0⟩ 0
    (fun r hr => absurd hr (List.not_mem_nil r))

/-- C7: the business's `last_review_fetch` timestamp is updated only
after a successful retrieval pass — the skip path (not forced, last
fetch under 24 hours old) returns the business and store untouched with
a `skipped` response carrying the old timestamp, a failing external
fetch returns them untouched with a 500, the success path sets the
timestamp to the current time, and a `skipped` response is a different
value from any `fetched n` response (including `fetched 0`). -/
theorem last_fetch_only_on_success (business : Business) (platform : String) (force : Bool)
    (now : Int) (external : Except Unit (List ReviewData)) (db : ReviewsDB) (fail : ℕ → Bool) :
    (∀ t, force = false → business.last_review_fetch = some t →
        now - t < refreshWindowMs →
        fetchReviewsHandler business platform force now external db fail =
          (.skipped t, business, db)) ∧
    (external = .error () →
        shouldSkipFetch business force now = false →
        fetchReviewsHandler business platform force now external db fail =
          (.serverError, business, db)) ∧
    (∀ reviews, external = .ok reviews →
        shouldSkipFetch business force now = false →
        (fetchReviewsHandler business platform force now external db fail).2.1 =
          { business with last_review_fetch := some now } ∧
        (fetchReviewsHandler business platform force now external db fail).1 =
          .fetched (processAndStoreReviews db business.id platform fail 0 reviews).2.length) ∧
    (∀ t n, (FetchOutcome.skipped t) ≠ (FetchOutcome.fetched n)) := by
  refine ⟨?_, ?_, ?_, ?_⟩
  · intro t hf hl hlt
    have hskip : shouldSkipFetch business force now = true := by
      simp [shouldSkipFetch, hf, hl, hlt]
    simp [fetchReviewsHandler, hskip, hl]
  · intro he hskip
    subst he
    simp [fetchReviewsHandler, hskip]
  · intro reviews he hskip
    subst he
    constructor <;> simp [fetchReviewsHandler, hskip]
  · intro t n h
    exact FetchOutcome.noConfusion h

/-- Witness for the C7 theorem: a business fetched at time 0 and asked
again at time 1000 without force is skipped untouched. -/
theorem last_fetch_only_on_success_witness :
    fetchReviewsHandler ⟨"b1", "g", "y", some 0⟩ "google" false 1000 (.ok []) ⟨[], 0⟩ noFail =
      (.skipped 0, ⟨"b1", "g", "y", some 0⟩, ⟨[], 0⟩) :=
  (last_fetch_only_on_success ⟨"b1", "g", "y", some 0⟩ "google" false 1000 (.ok []) ⟨[], 0⟩
    noFail).1 0 rfl rfl (by decide)

/-- C8 counterexample: a run in which the second review's insert fails
reports exactly the same outcome (`fetched 1`) as a run that never saw
that review — the per-review failure is swallowed and merged into the
success count, not individually identified. -/
theorem partial_failure_merged :
    (fetchReviewsHandler ⟨"b1", "g", "y", none⟩ "google" true 0
        (.ok [⟨"a", "A", none, 5, "t", "d", "u"⟩, ⟨"b", "B", none, 4, "t2", "d", "u2"⟩])
        ⟨[], 0⟩ (fun i => i == 1)).1 =
      (fetchReviewsHandler ⟨"b1", "g", "y", none⟩ "google" true 0
        (.ok [⟨"a", "A", none, 5, "t", "d", "u"⟩]) ⟨[], 0⟩ noFail).1 ∧
    (fetchReviewsHandler ⟨"b1", "g", "y", none⟩ "google" true 0
        (.ok [⟨"a", "A", none, 5, "t", "d", "u"⟩, ⟨"b", "B", none, 4, "t2", "d", "u2"⟩])
        ⟨[], 0⟩ (fun i => i == 1)).1 = .fetched 1 := by
  exact ⟨rfl, rfl⟩

/-- C8 amended: per-review persistence failures are logged and skipped
(`continue`), never surfaced: when every insert fails the handler still
answers plain success, reports `reviews_processed = 0`, stores nothing
and still advances the business's last-fetch timestamp — the response
identifies no failure. -/
theorem failures_silently_swallowed (business : Business) (platform : String)
    (now : Int) (reviews : List ReviewData) (db : ReviewsDB) (fail : ℕ → Bool)
    (hfail : ∀ i, fail i = true) :
    fetchReviewsHandler business platform true now (.ok reviews) db fail =
      (.fetched 0, { business with last_review_fetch := some now }, db) := by
  have hskip : shouldSkipFetch business true now = false := by
    simp [shouldSkipFetch]
  have hrun := run_all_fail business.id platform fail hfail reviews db 0
  simp [fetchReviewsHandler, hskip, hrun]

/-- Witness for the C8 amended theorem: one fetched review whose insert
fails — the handler answers `fetched 0` with nothing stored. -/
theorem failures_silently_swallowed_witness :
    fetchReviewsHandler ⟨"b1", "g", "y", none⟩ "google" true 0
        (.ok [⟨"a", "A", none, 5, "t", "d", "u"⟩]) ⟨[], 0⟩ (fun _ => true) =
      (.fetched 0, ⟨"b1", "g", "y", some 0⟩, ⟨[], 0⟩) :=
  failures_silently_swallowed ⟨"b1", "g", "y", none⟩ "google" 0
    [⟨"a", "A", none, 5, "t", "d", "u"⟩] ⟨[], 0⟩ (fun _ => true) (fun _ => rfl)

/-- C6 counterexample: a classification request with empty review text
for a pending review is rejected up front with a 400 missing-fields
response and the review row is left untouched in status `pending` — it
is not marked `failed`. -/
theorem empty_text_not_marked_failed :
    analyzeSentimentHandler "r1" "" 0 [("r1", Status.pending)] false =
      (.badRequest, [("r1", Status.pending)]) ∧
    Status.pending ≠ Status.failed := by
  exact ⟨rfl, by decide⟩

/-- C6 amended: empty review text reaching the classification handler
is rejected before any database write — the handler answers 400 and
returns every review row unchanged; the `failed` status is reserved for
the case where storing a computed analysis fails. -/
theorem empty_text_rejected_untouched (review_id : String) (rand : ℕ)
    (rows : List (String × Status)) (f : Bool) :
    analyzeSentimentHandler review_id "" rand rows f = (.badRequest, rows) := by
  simp [analyzeSentimentHandler]

end EchoPilot
